import Mathlib

/-!
Verification of the tool-orchestration agent in `src/main.py`.

Python strings are modelled as `List Char` (`PyStr`), so that slicing,
splitting and length arguments are elementary list facts.  External
collaborators (the `wikipedia` library, the `unidecode` transliterator, the
LLM client, the HTTP integrations and the `json` parser) are modelled as
oracle functions bundled in environment structures; everything in
`Agent.__resolve_city_page`, `Agent.__integrations_get_location_facts`,
`Agent.__summarize_location_facts`, `Agent.__execute_tool` and `Agent.run`
is translated directly from the source.
-/

/-- A Python string, modelled as its list of code points. -/
abbrev PyStr := List Char

/-- Shorthand turning a Lean string literal into a `PyStr`. -/
def pyS (s : String) : PyStr := s.toList

/-- The single-quote character (used inside several message templates). -/
def squo : Char := Char.ofNat 39

/-- Whitespace as stripped by Python `str.strip()` (ASCII subset). -/
def isPySpace (c : Char) : Bool :=
  c = ' ' || c = '\t' || c = '\n' || c = '\r' || c = '\x0b' || c = '\x0c'

/-- Python `s.strip()`: drop leading and trailing whitespace. -/
def pyStrip (s : PyStr) : PyStr :=
  ((s.dropWhile isPySpace).reverse.dropWhile isPySpace).reverse

/-- Python `s.lower()` (ASCII case folding). -/
def pyLower (s : PyStr) : PyStr := s.map Char.toLower

/-- Helper for `pyTitle`: `prevAlpha` records whether the previous character
was alphabetic. -/
def pyTitleAux (prevAlpha : Bool) : PyStr → PyStr
  | [] => []
  | c :: rest =>
    (if c.isAlpha then (if prevAlpha then c.toLower else c.toUpper) else c)
      :: pyTitleAux c.isAlpha rest

/-- Python `s.title()`: first letter of each alphabetic run uppercased, the
rest lowercased. -/
def pyTitle (s : PyStr) : PyStr := pyTitleAux false s

/-- Python `s.replace(' ', '-')`. -/
def pyHyphen (s : PyStr) : PyStr := s.map (fun c => if c = ' ' then '-' else c)

/-- `hasPre needle hay` holds when `needle` occurs at the very start of
`hay`. -/
def hasPre : PyStr → PyStr → Bool
  | [], _ => true
  | _ :: _, [] => false
  | a :: ns, b :: hs => a == b && hasPre ns hs

/-- Python `needle in hay` (substring containment). -/
def pyIn (needle : PyStr) : PyStr → Bool
  | [] => hasPre needle []
  | h :: hs => hasPre needle (h :: hs) || pyIn needle hs

/-- Python `s.split(sep)[0]` for a non-empty separator: the segment before
the first occurrence of `sep`, or all of `s` when `sep` does not occur. -/
def splitFirst (sep : PyStr) : PyStr → PyStr
  | [] => []
  | c :: rest => if hasPre sep (c :: rest) then [] else c :: splitFirst sep rest

/-- Python `s.rsplit(' ', 1)[0]`: everything before the last space, or all
of `s` when it contains no space. -/
def rsplitLast (s : PyStr) : PyStr :=
  match s.reverse.dropWhile (fun c => c != ' ') with
  | [] => s
  | _ :: tail => tail.reverse

/-- Python `sep.join(parts)`. -/
def joinSep (sep : PyStr) : List PyStr → PyStr
  | [] => []
  | [x] => x
  | x :: xs => x ++ sep ++ joinSep sep xs

/-- Order-preserving first-occurrence deduplication, as performed by
`list(dict.fromkeys(...))` in the source. -/
def pyDedupAux (seen : List PyStr) : List PyStr → List PyStr
  | [] => []
  | a :: l => if a ∈ seen then pyDedupAux seen l else a :: pyDedupAux (a :: seen) l

/-- `list(dict.fromkeys(l))`. -/
def pyDedup (l : List PyStr) : List PyStr := pyDedupAux [] l

/-- f-string rendering of a value that may be Python `None`. -/
def showOptStr : Option PyStr → PyStr
  | none => pyS "None"
  | some s => s

/-- First paragraph of an article body, as computed at line 115 of
`src/main.py`: `content.split('\n\n')[0].strip()`. -/
def firstPara (content : PyStr) : PyStr :=
  pyStrip (splitFirst (pyS "\n\n") content)

/-- Excerpt construction at lines 115-117 of `src/main.py`:
the first paragraph, and when longer than 500 characters,
`excerpt[:500].rsplit(' ', 1)[0] + '…'`. -/
def mkExcerpt (content : PyStr) : PyStr :=
  let excerpt := firstPara content
  if 500 < excerpt.length then rsplitLast (excerpt.take 500) ++ pyS "…"
  else excerpt

/-- A fetched Wikipedia article as used by the agent: its `title`, body
`content`, `url`, and the category labels (`none` models the category
fetch raising, which line 179-180 of the source absorbs). -/
structure Page where
  title : PyStr
  content : PyStr
  url : PyStr
  categories : Option (List PyStr)
deriving DecidableEq

/-- Outcome of a `wikipedia.page(...)` call: success, a
`DisambiguationError` carrying option titles, a `PageError`, or any other
exception. -/
inductive FetchResult where
  | ok (p : Page)
  | disambig (options : List PyStr)
  | pageError
  | otherError
deriving DecidableEq

/-- `true` exactly when a fetch succeeded. -/
def fetchIsOk : FetchResult → Bool
  | .ok _ => true
  | _ => false

/-- Oracle model of the external `wikipedia` and `unidecode` libraries.
`pageExact` is `wikipedia.page(t, auto_suggest=False)`, `pageAuto` is
`wikipedia.page(t, auto_suggest=True)`, `search` is `wikipedia.search`,
`unidecode` is the transliterator. -/
structure WikiEnv where
  pageExact : PyStr → FetchResult
  pageAuto : PyStr → FetchResult
  search : PyStr → List PyStr
  unidecode : PyStr → PyStr

/-- The deduplicated ordered surface-form variants built at lines 140-147
of `src/main.py` (raw, title-cased raw, transliterated, title-cased
transliterated, hyphenated raw, hyphenated transliterated). -/
def candidateVariants (unidec : PyStr → PyStr) (nm : PyStr) : List PyStr :=
  let raw := pyStrip nm
  let ascii := unidec raw
  pyDedup [raw, pyTitle raw, ascii, pyTitle ascii, pyHyphen raw, pyHyphen ascii]

/-- The direct-candidate loop at lines 148-154: the first variant whose
exact, non-autocorrected fetch succeeds wins; a `DisambiguationError`, a
`PageError` and any other exception all just move on to the next variant. -/
def directPass (w : WikiEnv) : List PyStr → Option Page
  | [] => none
  | c :: rest =>
    match w.pageExact c with
    | .ok p => some p
    | _ => directPass w rest

/-- The candidate score computed at lines 167-180: +100 for an exact
case-insensitive title match with the raw or transliterated input, +40 when
the lowercased raw input is a substring of the title, +15 when `"city"` is a
substring of the title, +25 when some category label contains `"cities"` or
`"populated places"` (0 when the category fetch raised). -/
def scorePage (raw ascii : PyStr) (p : Page) : Int :=
  let tl := pyLower p.title
  (if tl == pyLower raw || tl == pyLower ascii then (100 : Int) else 0)
  + (if pyIn (pyLower raw) tl then (40 : Int) else 0)
  + (if pyIn (pyS "city") tl then (15 : Int) else 0)
  + (match p.categories with
     | none => 0
     | some cats =>
       if cats.any (fun c =>
            pyIn (pyS "cities") (pyLower c) || pyIn (pyS "populated places") (pyLower c))
       then (25 : Int) else 0)

/-- The search-and-score loop at lines 160-184: fetch each of the first 10
search results with autocorrection (any exception skips that candidate),
score it, and keep the strictly best page seen so far, starting from
`best_page = None`, `best_score = -1`. -/
def searchLoop (w : WikiEnv) (raw ascii : PyStr) :
    List PyStr → Option Page → Int → Option Page
  | [], best, _ => best
  | r :: rest, best, bs =>
    match w.pageAuto r with
    | .ok p =>
      if bs < scorePage raw ascii p then
        searchLoop w raw ascii rest (some p) (scorePage raw ascii p)
      else searchLoop w raw ascii rest best bs
    | _ => searchLoop w raw ascii rest best bs

/-- `Agent.__resolve_city_page` (lines 136-184): the direct-candidate pass,
then the search-and-score pass (returning `None` when the search comes back
empty).  Both passes catch every per-attempt error internally, so the
function is total and never propagates a lookup exception. -/
def resolve_city_page (w : WikiEnv) (nm : PyStr) : Option Page :=
  let raw := pyStrip nm
  let ascii := w.unidecode raw
  match directPass w (candidateVariants w.unidecode nm) with
  | some p => some p
  | none =>
    let results := w.search ascii
    if results.isEmpty then none
    else searchLoop w raw ascii (results.take 10) none (-1)

/-- The JSON object serialized by `Agent.__integrations_get_location_facts`
(keys `error?`, `requested`, `resolved_title?`, `url?`, `excerpt?`,
`options?`, `details?`).  A field holding `none` models the key being
absent (or `null`, which `dict.get` cannot distinguish from absence). -/
structure FactsPayload where
  error : Option PyStr
  requested : Option PyStr
  resolved_title : Option PyStr
  url : Option PyStr
  excerpt : Option PyStr
  options : Option (List PyStr)
  details : Option PyStr
deriving DecidableEq

/-- The success payload built at lines 118-123. -/
def foundPayload (nm : PyStr) (p : Page) : FactsPayload :=
  ⟨none, some nm, some p.title, some p.url, some (mkExcerpt p.content), none, none⟩

/-- The `{"error": "not_found", "requested": name}` payload (line 113). -/
def notFoundPayload (nm : Option PyStr) : FactsPayload :=
  ⟨some (pyS "not_found"), nm, none, none, none, none, none⟩

/-- `str(e)` for the `AttributeError` raised by `None.strip()` when the
tool is invoked without a `name` argument. -/
def noneStripError : PyStr :=
  [squo] ++ pyS "NoneType" ++ [squo] ++ pyS " object has no attribute "
    ++ [squo] ++ pyS "strip" ++ [squo]

/-- `Agent.__integrations_get_location_facts` (lines 108-134).  When the
LLM omitted the `name` argument, `name` is Python `None` and
`None.strip()` raises an `AttributeError` that the generic handler at line
132 turns into a `general` payload.  Otherwise `__resolve_city_page` is
total (it catches every per-attempt fetch error itself, and
`DisambiguationError`/`PageError` are only raised by `wikipedia.page`
calls, all of which it wraps), so the handlers at lines 126-131 are
unreachable and the result is the found or not-found payload. -/
def integrations_get_location_facts (w : WikiEnv) (nm : Option PyStr) : FactsPayload :=
  match nm with
  | none => ⟨some (pyS "general"), none, none, none, none, none, some noneStripError⟩
  | some nm =>
    match resolve_city_page w nm with
    | none => notFoundPayload (some nm)
    | some p => foundPayload nm p

/-- Result of `json.loads(content)` in `Agent.__summarize_location_facts`:
either the parse raised, or it produced a dict (modelled by the keys the
summarizer reads). -/
inductive LoadsResult where
  | failed
  | dict (p : FactsPayload)
deriving DecidableEq

/-- The dict branch of `Agent.__summarize_location_facts` (lines 195-206):
the three error messages, or the `"{title}: {excerpt} Source: {url}"`
rendering hard-truncated to 600 characters. -/
def summarizeDict (p : FactsPayload) : PyStr :=
  match p.error with
  | some err =>
    if err = pyS "disambiguation" then
      pyS "Multiple possible matches: "
        ++ joinSep (pyS ", ") ((p.options.getD []).take 5)
        ++ pyS ". Please specify more details (country/region)."
    else if err = pyS "not_found" then
      pyS "I could not find a page for " ++ [squo] ++ showOptStr p.requested
        ++ [squo] ++ pyS ". Please check spelling or add country."
    else
      pyS "Error fetching facts (" ++ err ++ pyS "). Try again later."
  | none =>
    let title := (p.resolved_title).getD ((p.requested).getD (pyS "Unknown"))
    let excerpt := (p.excerpt).getD []
    let url := (p.url).getD []
    (title ++ pyS ": " ++ excerpt ++ pyS " Source: " ++ url).take 600

/-- `Agent.__summarize_location_facts` (lines 186-206), taking the content
string together with the outcome of `json.loads(content)`. -/
def summarize_location_facts (content : PyStr) (loaded : LoadsResult) : PyStr :=
  if content.isEmpty then pyS "No information was retrieved."
  else
    match loaded with
    | .failed => content.take 500
    | .dict p => summarizeDict p

/-- Tool-call arguments after the parse step at lines 74-78: either a JSON
dict (only the `ip_address` and `name` keys are ever read; this also covers
arguments that already arrived as a dict), or a string `json.loads` failed
on, which the code keeps as-is. -/
inductive ToolArgs where
  | dict (ip_address : Option PyStr) (name : Option PyStr)
  | badStr (s : PyStr)
deriving DecidableEq

/-- One tool invocation requested by the LLM. -/
structure ToolCall where
  id : PyStr
  name : PyStr
  arguments : ToolArgs
deriving DecidableEq

/-- A tool result string: either the `json.dumps` of a facts payload (from
`get_location_info`), or plain text (IP, location blob, unknown-tool
notice). -/
inductive ToolResponse where
  | payload (p : FactsPayload)
  | text (s : PyStr)
deriving DecidableEq

/-- A transcript message: system / user prompts, an assistant message
optionally recording requested tool calls, or a tool-result message
correlated to a call id. -/
inductive Msg where
  | system (content : PyStr)
  | user (content : PyStr)
  | assistant (content : Option PyStr) (tool_calls : List ToolCall)
  | toolMsg (tool_call_id : PyStr) (name : PyStr) (content : ToolResponse)
deriving DecidableEq

/-- One LLM chat completion: optional text content plus the requested tool
calls (`[]` models both an absent and an empty `tool_calls` field, which
line 222 of the source treats alike). -/
structure LLMResponse where
  content : Option PyStr
  tool_calls : List ToolCall

/-- The external collaborators of `Agent.run`: the wiki oracle, the public
IP service body, the geolocation service body (its argument is the
`ip_address` value, possibly Python `None` formatted into the URL), the LLM
client, and `json.loads` as used on plain-text summarizer input. -/
structure Env where
  wiki : WikiEnv
  publicIp : PyStr
  location : Option PyStr → PyStr
  llm : List Msg → LLMResponse
  jsonLoads : PyStr → LoadsResult

/-- An exception escaping `Agent.__execute_tool`: the `AttributeError`
raised by calling `.get` on arguments that stayed a plain string. -/
inductive ExecError where
  | attrGetOnStr (s : PyStr)
deriving DecidableEq

/-- The `f"Tool '{tool_name}' is not available."` notice of line 90. -/
def unknownToolNotice (nm : PyStr) : PyStr :=
  pyS "Tool " ++ [squo] ++ nm ++ [squo] ++ pyS " is not available."

/-- `Agent.__execute_tool` (lines 70-93): dispatch on the tool name;
`get_location` and `get_location_info` read their argument with `.get`,
which raises when the arguments are still a plain string (the handler at
lines 91-93 logs and re-raises); unknown names are not dispatched and get
the stand-in notice. -/
def executeTool (env : Env) (tc : ToolCall) : Except ExecError ToolResponse :=
  if tc.name = pyS "get_public_ip" then .ok (.text env.publicIp)
  else if tc.name = pyS "get_location" then
    match tc.arguments with
    | .dict ip _ => .ok (.text (env.location ip))
    | .badStr s => .error (.attrGetOnStr s)
  else if tc.name = pyS "get_location_info" then
    match tc.arguments with
    | .dict _ nm => .ok (.payload (integrations_get_location_facts env.wiki nm))
    | .badStr s => .error (.attrGetOnStr s)
  else .ok (.text (unknownToolNotice tc.name))

/-- `true` when `executeTool` returns normally. -/
def execOk (env : Env) (tc : ToolCall) : Bool :=
  match executeTool env tc with
  | .ok _ => true
  | .error _ => false

/-- The summarizer applied to a tool result, as at line 249.  A
`get_location_info` result is the `json.dumps` of its payload, which is
non-empty and reparses to the same dict, so it goes straight to the dict
branch; plain text goes through `json.loads`. -/
def summarizeToolResponse (env : Env) : ToolResponse → PyStr
  | .payload p => summarizeDict p
  | .text s => summarize_location_facts s (env.jsonLoads s)

/-- Outcome of the per-round dispatch loop at lines 240-252. -/
inductive DispatchOut where
  | finished (summary : PyStr)
  | cont
  | failed (e : ExecError)
deriving DecidableEq

/-- The dispatch loop at lines 240-252: execute each requested call in
order, append its tool-result message, and as soon as a call named
`get_location_info` completes, append the summary as an assistant message
and finish; an exception from `__execute_tool` aborts the loop before a
tool-result message is appended for the failing call. -/
def dispatchCalls (env : Env) (msgs : List Msg) : List ToolCall → List Msg × DispatchOut
  | [] => (msgs, .cont)
  | tc :: rest =>
    match executeTool env tc with
    | .error e => (msgs, .failed e)
    | .ok r =>
      let msgs' := msgs ++ [Msg.toolMsg tc.id tc.name r]
      if tc.name = pyS "get_location_info" then
        let summary := summarizeToolResponse env r
        (msgs' ++ [Msg.assistant (some summary) []], .finished summary)
      else dispatchCalls env msgs' rest

/-- How a run ends: a returned answer (possibly Python `None`), the
`Exception("Max iterations reached without final response.")` of line 259,
or a tool exception propagating out of the dispatch loop. -/
inductive RunOutcome where
  | finished (t : Option PyStr)
  | limitExceeded
  | toolError (e : ExecError)
deriving DecidableEq

/-- The `while iteration < self.__max_iterations` loop of `Agent.run`
(lines 208-259), with the remaining allowed rounds as fuel.  Each round
asks the LLM; with no tool calls the content is appended and returned as
the final answer; otherwise the assistant message recording the calls is
appended and the round's calls are dispatched.  The final transcript is
returned alongside the outcome, modelling the in-place mutation of the
caller's `messages` list. -/
def runLoop (env : Env) : Nat → List Msg → List Msg × RunOutcome
  | 0, msgs => (msgs, .limitExceeded)
  | n + 1, msgs =>
    let resp := env.llm msgs
    if resp.tool_calls.isEmpty then
      (msgs ++ [Msg.assistant resp.content []], .finished resp.content)
    else
      match dispatchCalls env (msgs ++ [Msg.assistant resp.content resp.tool_calls]) resp.tool_calls with
      | (m, .finished s) => (m, .finished (some s))
      | (m, .cont) => runLoop env n m
      | (m, .failed e) => (m, .toolError e)

/-- `Agent.run` with its cap `self.__max_iterations = 5`. -/
def run (env : Env) (messages : List Msg) : List Msg × RunOutcome :=
  runLoop env 5 messages

/-- A concrete article used in witness scenarios. -/
def page0 : Page :=
  ⟨pyS "Praha", pyS "Praha is a city.", pyS "https://en.wikipedia.org/wiki/Praha", none⟩

/-- A wiki oracle whose exact lookup always succeeds with `page0`. -/
def wiki0 : WikiEnv := ⟨fun _ => .ok page0, fun _ => .pageError, fun _ => [], fun s => s⟩

/-- A base environment: LLM always answers with no content and no tool
calls. -/
def env0 : Env := ⟨wiki0, pyS "1.2.3.4", fun _ => pyS "located", fun _ => ⟨none, []⟩, fun _ => .failed⟩

/-- A `get_location_info` invocation for `"Praha"`. -/
def tcInfo : ToolCall := ⟨pyS "1", pyS "get_location_info", .dict none (some (pyS "Praha"))⟩

/-- A `get_public_ip` invocation. -/
def tcPub : ToolCall := ⟨pyS "2", pyS "get_public_ip", .dict none none⟩

/-- A `get_location` invocation whose arguments stayed an unparseable
string. -/
def tcBad : ToolCall := ⟨pyS "3", pyS "get_location", .badStr (pyS "notjson")⟩

/-- An invocation of a tool name outside the catalog. -/
def tcUnknown : ToolCall := ⟨pyS "7", pyS "frobnicate", .badStr (pyS "oops")⟩

/-- An environment whose LLM requests `get_public_ip` in every round. -/
def envLoopTool : Env :=
  ⟨wiki0, pyS "1.2.3.4", fun _ => pyS "located", fun _ => ⟨none, [tcPub]⟩, fun _ => .failed⟩

/-- An environment whose LLM requests `get_location` with unparseable
string arguments in every round. -/
def envBadArgs : Env :=
  ⟨wiki0, pyS "1.2.3.4", fun _ => pyS "located", fun _ => ⟨some (pyS "hi"), [tcBad]⟩, fun _ => .failed⟩

/-- Wiki oracle for the C3 witness: only the title-cased variant `"Ab"` of
the input `"ab"` resolves; the raw variant hits a disambiguation error. -/
def wiki3 : WikiEnv :=
  ⟨fun c => if c = pyS "Ab" then .ok page0 else .disambig [], fun _ => .pageError,
   fun _ => [], fun s => s⟩

/-- The second search result for the C5 scenario. -/
def pageB : Page := ⟨pyS "B", pyS "b stuff", pyS "https://x/B", none⟩

/-- Wiki oracle for the C5 counterexample: every direct variant fails, the
search returns `["A", "B"]`, fetching `"A"` raises a disambiguation error,
and `"B"` fetches fine. -/
def wiki5 : WikiEnv :=
  ⟨fun _ => .pageError,
   fun r => if r = pyS "A" then .disambig [pyS "X"] else .ok pageB,
   fun _ => [pyS "A", pyS "B"], fun s => s⟩

/-- An article whose body is a single 501-character word. -/
def pageLong : Page := ⟨pyS "Z", List.replicate 501 'a', pyS "https://x/Z", none⟩

/-- Wiki oracle for the C6 counterexample: the exact lookup returns
`pageLong`. -/
def wiki6 : WikiEnv := ⟨fun _ => .ok pageLong, fun _ => .pageError, fun _ => [], fun s => s⟩

/-- A first paragraph of 601 characters whose 301st character is its only
space. -/
def paraSpace : PyStr := List.replicate 300 'a' ++ ' ' :: List.replicate 300 'b'

/-- A disambiguation payload carrying one 601-character option title. -/
def pBad : FactsPayload :=
  ⟨some (pyS "disambiguation"), none, none, none, none, some [List.replicate 601 'x'], none⟩

/-- The `json.dumps` text of `pBad` (so `json.loads` on it yields `pBad`). -/
def cBad : PyStr :=
  pyS "\x7b\"error\": \"disambiguation\", \"options\": [\""
    ++ List.replicate 601 'x' ++ pyS "\"]\x7d"


/-- The page successfully fetched for a search result, if any
(`wikipedia.page(r, auto_suggest=True)` with every exception skipping the
candidate). -/
def fetchOk (w : WikiEnv) (r : PyStr) : Option Page :=
  match w.pageAuto r with
  | FetchResult.ok p => some p
  | _ => none

/-- The maximum of `b` and the scores of the pages in `l`. -/
def scMax (raw ascii : PyStr) (l : List Page) (b : Int) : Int :=
  l.foldr (fun p acc => max (scorePage raw ascii p) acc) b


lemma dispatch_extends (env : Env) : ∀ (calls : List ToolCall) (msgs : List Msg),
    ∃ t, (dispatchCalls env msgs calls).1 = msgs ++ t := by
  intro calls
  induction calls with
  | nil => intro msgs; exact ⟨[], by simp [dispatchCalls]⟩
  | cons tc rest ih =>
    intro msgs
    cases h : executeTool env tc with
    | error e => exact ⟨[], by simp [dispatchCalls, h]⟩
    | ok r =>
      by_cases hn : tc.name = pyS "get_location_info"
      · exact ⟨[Msg.toolMsg tc.id tc.name r,
          Msg.assistant (some (summarizeToolResponse env r)) []], by simp [dispatchCalls, h, hn]⟩
      · obtain ⟨t, ht⟩ := ih (msgs ++ [Msg.toolMsg tc.id tc.name r])
        exact ⟨Msg.toolMsg tc.id tc.name r :: t, by simp [dispatchCalls, h, hn, ht]⟩

lemma runLoop_extends (env : Env) : ∀ (n : Nat) (msgs : List Msg),
    ∃ t, (runLoop env n msgs).1 = msgs ++ t := by
  intro n
  induction n with
  | zero => intro msgs; exact ⟨[], by simp [runLoop]⟩
  | succ n ih =>
    intro msgs
    by_cases he : (env.llm msgs).tool_calls.isEmpty
    · exact ⟨[Msg.assistant (env.llm msgs).content []], by simp [runLoop, he]⟩
    · obtain ⟨t, ht⟩ := dispatch_extends env (env.llm msgs).tool_calls
        (msgs ++ [Msg.assistant (env.llm msgs).content (env.llm msgs).tool_calls])
      rcases hd : dispatchCalls env
          (msgs ++ [Msg.assistant (env.llm msgs).content (env.llm msgs).tool_calls])
          (env.llm msgs).tool_calls with ⟨m, out⟩
      rw [hd] at ht
      cases out with
      | finished s =>
        exact ⟨Msg.assistant (env.llm msgs).content (env.llm msgs).tool_calls :: t,
          by simp [runLoop, he, hd]; simpa using ht⟩
      | cont =>
        obtain ⟨t', ht'⟩ := ih m
        refine ⟨Msg.assistant (env.llm msgs).content (env.llm msgs).tool_calls :: (t ++ t'), ?_⟩
        have h2 : (runLoop env (n + 1) msgs).1 = (runLoop env n m).1 := by
          simp [runLoop, he, hd]
        replace ht : m = msgs ++ [Msg.assistant (env.llm msgs).content (env.llm msgs).tool_calls] ++ t := ht
        rw [h2, ht', ht]
        simp
      | failed e =>
        exact ⟨Msg.assistant (env.llm msgs).content (env.llm msgs).tool_calls :: t,
          by simp [runLoop, he, hd]; simpa using ht⟩

/-- Claim C9: the transcript is append-only throughout a run — whatever
`run` was called with is an unchanged initial segment of the final
transcript, and the loop only ever appends new messages. -/
theorem c9_transcript_append_only (env : Env) (msgs : List Msg) :
    ∃ t, (run env msgs).1 = msgs ++ t := by
  exact runLoop_extends env 5 msgs

/-- Claim C1: as soon as a tool invocation named `get_location_info` is
executed in a round, its serialized result is passed to the summarizer, the
summary is appended as a final assistant message, and `run` returns that
summary immediately; the invocations after it in the round (`rest`) never
influence the result and are never executed. -/
theorem c1_location_info_finishes_round (env : Env) (msgs : List Msg)
    (tc : ToolCall) (rest : List ToolCall) (r : ToolResponse) (n : Nat)
    (hname : tc.name = pyS "get_location_info")
    (hex : executeTool env tc = Except.ok r) :
    dispatchCalls env msgs (tc :: rest) =
      (msgs ++ [Msg.toolMsg tc.id tc.name r,
        Msg.assistant (some (summarizeToolResponse env r)) []],
       DispatchOut.finished (summarizeToolResponse env r)) ∧
    ((env.llm msgs).tool_calls = tc :: rest →
      runLoop env (n + 1) msgs =
        (msgs ++ [Msg.assistant (env.llm msgs).content (tc :: rest),
          Msg.toolMsg tc.id tc.name r,
          Msg.assistant (some (summarizeToolResponse env r)) []],
         RunOutcome.finished (some (summarizeToolResponse env r)))) := by
  have key : ∀ ms : List Msg, dispatchCalls env ms (tc :: rest) =
      (ms ++ [Msg.toolMsg tc.id tc.name r,
        Msg.assistant (some (summarizeToolResponse env r)) []],
       DispatchOut.finished (summarizeToolResponse env r)) := by
    intro ms
    simp [dispatchCalls, hex, hname]
  refine ⟨key msgs, fun hl => ?_⟩
  simp [runLoop, hl, key]

/-- Witness for C1 at a concrete environment and invocation. -/
theorem c1_witness :
    dispatchCalls env0 [] [tcInfo] =
      ([Msg.toolMsg tcInfo.id tcInfo.name
          (ToolResponse.payload (integrations_get_location_facts env0.wiki (some (pyS "Praha")))),
        Msg.assistant (some (summarizeToolResponse env0
          (ToolResponse.payload (integrations_get_location_facts env0.wiki (some (pyS "Praha")))))) []],
       DispatchOut.finished (summarizeToolResponse env0
         (ToolResponse.payload (integrations_get_location_facts env0.wiki (some (pyS "Praha")))))) := by
  have h := c1_location_info_finishes_round env0 [] tcInfo []
    (ToolResponse.payload (integrations_get_location_facts env0.wiki (some (pyS "Praha")))) 0
    (by decide) rfl
  simpa using h.1

/-- Claim C8: a tool invocation whose name is none of the three catalog
names is not dispatched; the textual stand-in notice is its result, it is
appended as that invocation's tool-result message, and the dispatch loop
proceeds to the remaining invocations without raising. -/
theorem c8_unknown_tool_not_dispatched (env : Env) (msgs : List Msg)
    (tc : ToolCall) (rest : List ToolCall)
    (h1 : tc.name ≠ pyS "get_public_ip")
    (h2 : tc.name ≠ pyS "get_location")
    (h3 : tc.name ≠ pyS "get_location_info") :
    executeTool env tc = Except.ok (ToolResponse.text (unknownToolNotice tc.name)) ∧
    dispatchCalls env msgs (tc :: rest) =
      dispatchCalls env
        (msgs ++ [Msg.toolMsg tc.id tc.name (ToolResponse.text (unknownToolNotice tc.name))])
        rest := by
  have hex : executeTool env tc = Except.ok (ToolResponse.text (unknownToolNotice tc.name)) := by
    simp [executeTool, h1, h2, h3]
  exact ⟨hex, by simp [dispatchCalls, hex, h3]⟩

/-- Witness for C8 at a concrete unknown invocation. -/
theorem c8_witness :
    executeTool env0 tcUnknown =
      Except.ok (ToolResponse.text (unknownToolNotice tcUnknown.name)) ∧
    dispatchCalls env0 [] [tcUnknown] =
      dispatchCalls env0
        [Msg.toolMsg tcUnknown.id tcUnknown.name
          (ToolResponse.text (unknownToolNotice tcUnknown.name))] [] :=
  c8_unknown_tool_not_dispatched env0 [] tcUnknown []
    (by decide) (by decide) (by decide)

/-- Claim C10: a `get_location` or `get_location_info` invocation whose
argument payload is a string `json.loads` cannot parse makes the dispatch
raise: `__execute_tool` fails, no tool-result message is produced for the
invocation, and the exception propagates out of the round and aborts the
run. -/
theorem c10_bad_args_abort (env : Env) (msgs : List Msg) (tc : ToolCall)
    (rest : List ToolCall) (s : PyStr) (n : Nat)
    (hargs : tc.arguments = ToolArgs.badStr s)
    (hname : tc.name = pyS "get_location" ∨ tc.name = pyS "get_location_info") :
    executeTool env tc = Except.error (ExecError.attrGetOnStr s) ∧
    dispatchCalls env msgs (tc :: rest) = (msgs, DispatchOut.failed (ExecError.attrGetOnStr s)) ∧
    ((env.llm msgs).tool_calls = tc :: rest →
      runLoop env (n + 1) msgs =
        (msgs ++ [Msg.assistant (env.llm msgs).content (tc :: rest)],
         RunOutcome.toolError (ExecError.attrGetOnStr s))) := by
  have hex : executeTool env tc = Except.error (ExecError.attrGetOnStr s) := by
    rcases hname with h | h <;> simp [executeTool, h, hargs, pyS]
  have key : ∀ ms : List Msg, dispatchCalls env ms (tc :: rest) =
      (ms, DispatchOut.failed (ExecError.attrGetOnStr s)) := by
    intro ms; simp [dispatchCalls, hex]
  refine ⟨hex, key msgs, fun hl => ?_⟩
  simp [runLoop, hl, key]

/-- Witness for C10 at a concrete environment whose LLM requests
`get_location` with an unparseable string argument. -/
theorem c10_witness :
    executeTool envBadArgs tcBad = Except.error (ExecError.attrGetOnStr (pyS "notjson")) ∧
    dispatchCalls envBadArgs [] [tcBad] =
      ([], DispatchOut.failed (ExecError.attrGetOnStr (pyS "notjson"))) ∧
    ((envBadArgs.llm []).tool_calls = [tcBad] →
      runLoop envBadArgs 1 [] =
        ([Msg.assistant (envBadArgs.llm []).content [tcBad]],
         RunOutcome.toolError (ExecError.attrGetOnStr (pyS "notjson")))) :=
  c10_bad_args_abort envBadArgs [] tcBad [] (pyS "notjson") 0 rfl (Or.inl (by decide))

lemma dispatch_all_ok (env : Env) : ∀ (calls : List ToolCall),
    (∀ tc ∈ calls, tc.name ≠ pyS "get_location_info" ∧ execOk env tc = true) →
    ∀ msgs : List Msg, (dispatchCalls env msgs calls).2 = DispatchOut.cont ∧
      (dispatchCalls env msgs calls).1.length = msgs.length + calls.length := by
  intro calls
  induction calls with
  | nil => intro _ msgs; simp [dispatchCalls]
  | cons tc rest ih =>
    intro h msgs
    obtain ⟨hn, ho⟩ := h tc (by simp)
    obtain ⟨r, hr⟩ : ∃ r, executeTool env tc = Except.ok r := by
      unfold execOk at ho
      cases hex : executeTool env tc with
      | ok r => exact ⟨r, rfl⟩
      | error e => rw [hex] at ho; simp at ho
    have ih' := ih (fun tc' h' => h tc' (by simp [h'])) (msgs ++ [Msg.toolMsg tc.id tc.name r])
    refine ⟨?_, ?_⟩
    · simpa [dispatchCalls, hr, hn] using ih'.1
    · simp only [dispatchCalls, hr]
      rw [if_neg hn]
      have h2 := ih'.2
      simp only [List.length_append, List.length_singleton] at h2
      rw [h2]
      simp only [List.length_cons]
      omega

lemma runLoop_all_tools_limit (env : Env)
    (H1 : ∀ m : List Msg, (env.llm m).tool_calls ≠ [] ∧
      ∀ tc ∈ (env.llm m).tool_calls, tc.name ≠ pyS "get_location_info" ∧ execOk env tc = true) :
    ∀ (n : Nat) (msgs : List Msg),
      (runLoop env n msgs).2 = RunOutcome.limitExceeded ∧
      ((∀ m : List Msg, ((env.llm m).tool_calls).length = 1) →
        (runLoop env n msgs).1.length = msgs.length + 2 * n) := by
  intro n
  induction n with
  | zero => intro msgs; simp [runLoop]
  | succ n ih =>
    intro msgs
    obtain ⟨hne, hcalls⟩ := H1 msgs
    have hie : ¬ (env.llm msgs).tool_calls.isEmpty := by
      simpa [List.isEmpty_iff] using hne
    have hd := dispatch_all_ok env (env.llm msgs).tool_calls hcalls
      (msgs ++ [Msg.assistant (env.llm msgs).content (env.llm msgs).tool_calls])
    rcases hdc : dispatchCalls env
        (msgs ++ [Msg.assistant (env.llm msgs).content (env.llm msgs).tool_calls])
        (env.llm msgs).tool_calls with ⟨m, out⟩
    rw [hdc] at hd
    have hout : out = DispatchOut.cont := hd.1
    subst hout
    have hrun : runLoop env (n + 1) msgs = runLoop env n m := by
      simp [runLoop, hie, hdc]
    refine ⟨by rw [hrun]; exact (ih m).1, fun hone => ?_⟩
    rw [hrun, (ih m).2 hone]
    have hm : m.length = (msgs ++ [Msg.assistant (env.llm msgs).content (env.llm msgs).tool_calls]).length
        + ((env.llm msgs).tool_calls).length := hd.2
    have h1 := hone msgs
    simp only [List.length_append, List.length_singleton] at hm
    omega

/-- Claim C2 as amended: the original claim fails (a stub that never
answers and never requests tools makes `run` return its empty content in
round one, see the counterexample); instead, for any LLM stub that requests
at least one tool invocation every round, none named `get_location_info`
and all executing without error, `run` fails with the iteration-limit
error, and it does so after exactly 5 rounds: with one invocation per
round the transcript gains exactly 10 messages (an assistant and a
tool-result message per round). -/
theorem c2_amended_limit (env : Env) (msgs : List Msg)
    (H1 : ∀ m : List Msg, (env.llm m).tool_calls ≠ [] ∧
      ∀ tc ∈ (env.llm m).tool_calls, tc.name ≠ pyS "get_location_info" ∧ execOk env tc = true) :
    (run env msgs).2 = RunOutcome.limitExceeded ∧
    ((∀ m : List Msg, ((env.llm m).tool_calls).length = 1) →
      (run env msgs).1.length = msgs.length + 10) := by
  have h := runLoop_all_tools_limit env H1 5 msgs
  exact ⟨h.1, fun hone => by have := h.2 hone; simpa using this⟩

/-- Counterexample to claim C2 as stated: with an LLM stub that never
returns any textual content and never requests any tool invocation, `run`
does not raise the iteration-limit error after 5 rounds — it returns the
stub's `None` content in the very first round, appending a single assistant
message. -/
theorem c2_counterexample :
    run env0 [] = ([Msg.assistant none []], RunOutcome.finished none) := by
  rfl

/-- Witness for the amended C2 at a stub requesting `get_public_ip` every
round: the run hits the iteration limit with exactly 10 appended
messages, i.e. exactly 5 rounds. -/
theorem c2_witness :
    (run envLoopTool []).2 = RunOutcome.limitExceeded ∧
    (run envLoopTool []).1.length = ([] : List Msg).length + 10 := by
  have H1 : ∀ m : List Msg, (envLoopTool.llm m).tool_calls ≠ [] ∧
      ∀ tc ∈ (envLoopTool.llm m).tool_calls,
        tc.name ≠ pyS "get_location_info" ∧ execOk envLoopTool tc = true := by
    intro m
    refine ⟨by simp [envLoopTool], ?_⟩
    intro tc htc
    simp [envLoopTool] at htc
    subst htc
    exact ⟨by decide, by decide⟩
  exact ⟨(c2_amended_limit envLoopTool [] H1).1,
    (c2_amended_limit envLoopTool [] H1).2 (fun _ => rfl)⟩

/-- Claim C7 as amended: the original 600-character bound fails on error
payloads, whose branches interpolate payload fields without truncation (see
the counterexample); the bound does hold for every input that is empty,
that `json.loads` fails on, or that parses to a dict without an `error`
key. -/
theorem c7_amended_summary_bound (c : PyStr) (l : LoadsResult)
    (h : ∀ p, l = LoadsResult.dict p → p.error = none) :
    (summarize_location_facts c l).length ≤ 600 := by
  by_cases hc : c.isEmpty
  · simp only [summarize_location_facts, hc, if_pos]
    decide
  · cases l with
    | failed =>
      simp only [summarize_location_facts, hc, if_false, Bool.false_eq_true, if_neg]
      simp [List.length_take]
    | dict p =>
      have hp := h p rfl
      simp only [summarize_location_facts, hc, Bool.false_eq_true, if_neg, summarizeDict, hp]
      simp [List.length_take]

set_option maxRecDepth 40000 in
/-- Counterexample to claim C7 as stated: a disambiguation payload whose
single option title is 601 characters long makes the summarizer return more
than 600 characters (`cBad` is the serialized form of that payload, so this
input is an ordinary string reaching the summarizer). -/
theorem c7_counterexample :
    600 < (summarize_location_facts cBad (LoadsResult.dict pBad)).length := by
  decide

/-- Witness for the amended C7 at a non-JSON input. -/
theorem c7_witness :
    (summarize_location_facts (pyS "hello") LoadsResult.failed).length ≤ 600 :=
  c7_amended_summary_bound (pyS "hello") LoadsResult.failed (fun _ h => nomatch h)

lemma dropWhile_head_not (p : Char → Bool) : ∀ (l : PyStr) (a : Char) (l' : PyStr),
    l.dropWhile p = a :: l' → p a = false := by
  intro l
  induction l with
  | nil => intro a l' h; simp at h
  | cons c cs ih =>
    intro a l' h
    rw [List.dropWhile_cons] at h
    by_cases hc : p c
    · rw [if_pos hc] at h; exact ih a l' h
    · rw [if_neg hc] at h
      cases h
      simpa using hc

lemma len_dropWhile_le (p : Char → Bool) : ∀ l : PyStr, (l.dropWhile p).length ≤ l.length := by
  intro l
  induction l with
  | nil => simp
  | cons c cs ih =>
    rw [List.dropWhile_cons]
    by_cases hc : p c
    · rw [if_pos hc]; exact le_trans ih (by simp)
    · rw [if_neg hc]

lemma rsplitLast_split (s : PyStr) (h : ' ' ∈ s) :
    ∃ w rest, s = w ++ ' ' :: rest ∧ ' ' ∉ rest ∧ rsplitLast s = w := by
  rcases hd : s.reverse.dropWhile (fun c => c != ' ') with _ | ⟨a, tail⟩
  · exfalso
    have hall := List.dropWhile_eq_nil_iff.mp hd
    have h' : ' ' ∈ s.reverse := List.mem_reverse.mpr h
    have := hall ' ' h'
    simp at this
  · have ha : (a != ' ') = false := dropWhile_head_not (fun c => c != ' ') s.reverse a tail hd
    have ha' : a = ' ' := by simpa using ha
    subst ha'
    have hsplit : s.reverse.takeWhile (fun c => c != ' ') ++ (' ' :: tail) = s.reverse := by
      rw [← hd]; exact List.takeWhile_append_dropWhile _ _
    refine ⟨tail.reverse, (s.reverse.takeWhile (fun c => c != ' ')).reverse, ?_, ?_, ?_⟩
    · have h2 := congrArg List.reverse hsplit
      rw [List.reverse_reverse] at h2
      calc s = ((s.reverse.takeWhile (fun c => c != ' ')) ++ ' ' :: tail).reverse := h2.symm
        _ = tail.reverse ++ ' ' :: (s.reverse.takeWhile (fun c => c != ' ')).reverse := by
            simp
    · intro hm
      have hmem : ' ' ∈ s.reverse.takeWhile (fun c => c != ' ') := List.mem_reverse.mp hm
      have := List.mem_takeWhile_imp hmem
      simp at this
    · simp [rsplitLast, hd]

lemma rsplitLast_le (s : PyStr) : (rsplitLast s).length ≤ s.length := by
  rcases hd : s.reverse.dropWhile (fun c => c != ' ') with _ | ⟨a, tail⟩
  · simp [rsplitLast, hd]
  · have h1 : (a :: tail).length ≤ s.length := by
      rw [← hd]
      simpa using len_dropWhile_le _ s.reverse
    simp only [rsplitLast, hd, List.length_reverse]
    simp at h1
    omega

lemma rsplitLast_lt (s : PyStr) (h : ' ' ∈ s) : (rsplitLast s).length < s.length := by
  obtain ⟨w, rest, hs, _, hr⟩ := rsplitLast_split s h
  rw [hr, hs]
  simp

/-- Claim C6 as amended: for every `Found` result the excerpt is
`mkExcerpt` of the article body, whose length is at most 501 — the stated
500 bound and the word-boundary property hold whenever the first 500
characters of the first paragraph contain a space, but fail on a spaceless
over-long paragraph (see the counterexample), where the excerpt is 500
characters plus the ellipsis. -/
theorem c6_amended_excerpt_bounds :
    (∀ (w : WikiEnv) (nm : Option PyStr) (e : PyStr),
      (integrations_get_location_facts w nm).excerpt = some e → ∃ c, e = mkExcerpt c) ∧
    (∀ c : PyStr, (mkExcerpt c).length ≤ 501) ∧
    (∀ c : PyStr, ' ' ∈ (firstPara c).take 500 → (mkExcerpt c).length ≤ 500) ∧
    (∀ c : PyStr, 500 < (firstPara c).length → ' ' ∈ (firstPara c).take 500 →
      ∃ w rest, (firstPara c).take 500 = w ++ ' ' :: rest ∧ ' ' ∉ rest ∧
        mkExcerpt c = w ++ pyS "…") := by
  refine ⟨?_, ?_, ?_, ?_⟩
  · intro w nm e h
    cases nm with
    | none => simp [integrations_get_location_facts] at h
    | some nm =>
      rcases hr : resolve_city_page w nm with _ | p
      · simp [integrations_get_location_facts, hr, notFoundPayload] at h
      · refine ⟨p.content, ?_⟩
        simp [integrations_get_location_facts, hr, foundPayload] at h
        exact h.symm
  · intro c
    by_cases h5 : 500 < (firstPara c).length
    · simp only [mkExcerpt, if_pos h5, List.length_append]
      have h1 := rsplitLast_le ((firstPara c).take 500)
      rw [List.length_take] at h1
      have : (pyS "…").length = 1 := by decide
      omega
    · simp only [mkExcerpt, if_neg h5]
      omega
  · intro c hsp
    by_cases h5 : 500 < (firstPara c).length
    · simp only [mkExcerpt, if_pos h5, List.length_append]
      have h1 := rsplitLast_lt ((firstPara c).take 500) hsp
      rw [List.length_take] at h1
      have : (pyS "…").length = 1 := by decide
      omega
    · simp only [mkExcerpt, if_neg h5]
      omega
  · intro c h5 hsp
    obtain ⟨w, rest, hs, hnr, hr⟩ := rsplitLast_split ((firstPara c).take 500) hsp
    refine ⟨w, rest, hs, hnr, ?_⟩
    simp only [mkExcerpt, if_pos h5, hr]

set_option maxRecDepth 80000 in
/-- Counterexample to claim C6 as stated: with an article whose body is a
single 501-character word, the `Found` excerpt has length 501 > 500 (500
characters plus the appended ellipsis, with no word boundary at the cut). -/
theorem c6_counterexample :
    ((integrations_get_location_facts wiki6 (some (pyS "z"))).excerpt.getD []).length = 501 := by
  decide

set_option maxRecDepth 80000 in
/-- Witness for the amended C6 at a 601-character paragraph whose only
space sits at position 300. -/
theorem c6_witness :
    ((' ' ∈ (firstPara paraSpace).take 500) ∧ (mkExcerpt paraSpace).length ≤ 500) ∧
    (500 < (firstPara paraSpace).length ∧ ∃ w rest,
      (firstPara paraSpace).take 500 = w ++ ' ' :: rest ∧ ' ' ∉ rest ∧
      mkExcerpt paraSpace = w ++ pyS "…") := by
  have hsp : ' ' ∈ (firstPara paraSpace).take 500 := by decide
  have h5 : 500 < (firstPara paraSpace).length := by decide
  exact ⟨⟨hsp, c6_amended_excerpt_bounds.2.2.1 paraSpace hsp⟩,
    ⟨h5, c6_amended_excerpt_bounds.2.2.2 paraSpace h5 hsp⟩⟩

lemma directPass_first (w : WikiEnv) : ∀ (l1 : List PyStr) (c : PyStr) (l2 : List PyStr) (p : Page),
    (∀ c' ∈ l1, fetchIsOk (w.pageExact c') = false) → w.pageExact c = FetchResult.ok p →
    directPass w (l1 ++ c :: l2) = some p := by
  intro l1
  induction l1 with
  | nil => intro c l2 p _ hc; simp [directPass, hc]
  | cons a l1 ih =>
    intro c l2 p hfail hc
    have ha := hfail a (by simp)
    have hrest := ih c l2 p (fun c' h' => hfail c' (by simp [h'])) hc
    rcases hx : w.pageExact a with q | o | _ | _
    · rw [hx] at ha; simp [fetchIsOk] at ha
    all_goals simpa [directPass, hx] using hrest

/-- Claim C3: when the deduplicated variant list splits as `l1 ++ c :: l2`
with every variant in `l1` failing its exact non-autocorrected lookup (for
any reason) and `c` fetching a page, the resolver returns that page — the
first successful variant wins and failures only move on to the next
variant. -/
theorem c3_first_variant_found (w : WikiEnv) (nm : PyStr) (l1 : List PyStr) (c : PyStr)
    (l2 : List PyStr) (p : Page)
    (hvar : candidateVariants w.unidecode nm = l1 ++ c :: l2)
    (hfail : ∀ c' ∈ l1, fetchIsOk (w.pageExact c') = false)
    (hc : w.pageExact c = FetchResult.ok p) :
    resolve_city_page w nm = some p := by
  have hd := directPass_first w l1 c l2 p hfail hc
  simp only [resolve_city_page, hvar, hd]

/-- Witness for C3: for input `"ab"` the variants are `["ab", "Ab"]`; the
raw variant hits a disambiguation error, which is swallowed, and the
title-cased variant resolves. -/
theorem c3_witness :
    resolve_city_page wiki3 (pyS "ab") = some page0 :=
  c3_first_variant_found wiki3 (pyS "ab") [pyS "ab"] (pyS "Ab") [] page0
    (by decide) (by decide) (by decide)

lemma foldr_max_ge (f : Page → Int) : ∀ (l : List Page) (b : Int),
    b ≤ l.foldr (fun p acc => max (f p) acc) b := by
  intro l
  induction l with
  | nil => intro b; simp
  | cons p ps ih => intro b; exact le_trans (ih b) (le_max_right _ _)

lemma foldr_max_max (f : Page → Int) : ∀ (l : List Page) (a b : Int),
    l.foldr (fun p acc => max (f p) acc) (max a b)
      = max a (l.foldr (fun p acc => max (f p) acc) b) := by
  intro l
  induction l with
  | nil => intro a b; simp
  | cons p ps ih =>
    intro a b
    simp only [List.foldr_cons, ih]
    rw [max_left_comm]

lemma scMax_ge (raw ascii : PyStr) (l : List Page) (b : Int) : b ≤ scMax raw ascii l b :=
  foldr_max_ge (scorePage raw ascii) l b

lemma scMax_max (raw ascii : PyStr) (l : List Page) (a b : Int) :
    scMax raw ascii l (max a b) = max a (scMax raw ascii l b) :=
  foldr_max_max (scorePage raw ascii) l a b

lemma scMax_cons (raw ascii : PyStr) (p : Page) (l : List Page) (b : Int) :
    scMax raw ascii (p :: l) b = max (scorePage raw ascii p) (scMax raw ascii l b) := rfl

lemma scorePage_nonneg (raw ascii : PyStr) (p : Page) : 0 ≤ scorePage raw ascii p := by
  unfold scorePage
  dsimp only
  have h1 : (0:Int) ≤ if pyLower p.title == pyLower raw || pyLower p.title == pyLower ascii
      then (100 : Int) else 0 := by split <;> norm_num
  have h2 : (0:Int) ≤ if pyIn (pyLower raw) (pyLower p.title) then (40 : Int) else 0 := by
    split <;> norm_num
  have h3 : (0:Int) ≤ if pyIn (pyS "city") (pyLower p.title) then (15 : Int) else 0 := by
    split <;> norm_num
  have h4 : (0:Int) ≤ match p.categories with
      | none => (0 : Int)
      | some cats =>
        if cats.any (fun c =>
             pyIn (pyS "cities") (pyLower c) || pyIn (pyS "populated places") (pyLower c))
        then (25 : Int) else 0 := by
    rcases p.categories with _ | cats
    · norm_num
    · dsimp only; split <;> norm_num
  exact add_nonneg (add_nonneg (add_nonneg h1 h2) h3) h4

lemma searchLoop_find (w : WikiEnv) (raw ascii : PyStr) :
    ∀ (rs : List PyStr) (bs : Int) (best : Option Page),
    searchLoop w raw ascii rs best bs =
      (if bs < scMax raw ascii (rs.filterMap (fetchOk w)) bs
       then (rs.filterMap (fetchOk w)).find?
         (fun p => scorePage raw ascii p == scMax raw ascii (rs.filterMap (fetchOk w)) bs)
       else best) := by
  intro rs
  induction rs with
  | nil =>
    intro bs best
    simp [searchLoop, scMax]
  | cons r rs ih =>
    intro bs best
    rcases hx : w.pageAuto r with p | o | _ | _
    case ok =>
      have hf : (r :: rs).filterMap (fetchOk w) = p :: rs.filterMap (fetchOk w) := by
        simp [List.filterMap_cons, fetchOk, hx]
      rw [hf, scMax_cons]
      simp only [searchLoop, hx]
      by_cases hlt : bs < scorePage raw ascii p
      · rw [if_pos hlt, ih (scorePage raw ascii p) (some p)]
        have hm2 : scMax raw ascii (rs.filterMap (fetchOk w)) (scorePage raw ascii p)
            = max (scorePage raw ascii p) (scMax raw ascii (rs.filterMap (fetchOk w)) bs) := by
          have h1 : max (scorePage raw ascii p) bs = scorePage raw ascii p :=
            max_eq_left (le_of_lt hlt)
          calc scMax raw ascii (rs.filterMap (fetchOk w)) (scorePage raw ascii p)
              = scMax raw ascii (rs.filterMap (fetchOk w)) (max (scorePage raw ascii p) bs) := by
                rw [h1]
            _ = max (scorePage raw ascii p) (scMax raw ascii (rs.filterMap (fetchOk w)) bs) :=
                scMax_max _ _ _ _ _
        rw [hm2]
        have hbsM : bs < max (scorePage raw ascii p)
            (scMax raw ascii (rs.filterMap (fetchOk w)) bs) :=
          lt_of_lt_of_le hlt (le_max_left _ _)
        rw [if_pos hbsM]
        by_cases hpm : scorePage raw ascii p
            < max (scorePage raw ascii p) (scMax raw ascii (rs.filterMap (fetchOk w)) bs)
        · rw [if_pos hpm, List.find?_cons_of_neg]
          simp only [beq_iff_eq]
          exact ne_of_lt hpm
        · have hEq : scorePage raw ascii p
              = max (scorePage raw ascii p) (scMax raw ascii (rs.filterMap (fetchOk w)) bs) :=
            le_antisymm (le_max_left _ _) (not_lt.mp hpm)
          rw [if_neg hpm, List.find?_cons_of_pos]
          simp only [beq_iff_eq]
          exact hEq
      · rw [if_neg hlt, ih bs best]
        have hscle : scorePage raw ascii p ≤ bs := not_lt.mp hlt
        have hble : bs ≤ scMax raw ascii (rs.filterMap (fetchOk w)) bs := scMax_ge _ _ _ _
        have hMeq : max (scorePage raw ascii p) (scMax raw ascii (rs.filterMap (fetchOk w)) bs)
            = scMax raw ascii (rs.filterMap (fetchOk w)) bs :=
          max_eq_right (le_trans hscle hble)
        rw [hMeq]
        by_cases hgt : bs < scMax raw ascii (rs.filterMap (fetchOk w)) bs
        · rw [if_pos hgt, if_pos hgt, List.find?_cons_of_neg]
          simp only [beq_iff_eq]
          exact ne_of_lt (lt_of_le_of_lt hscle hgt)
        · rw [if_neg hgt, if_neg hgt]
    all_goals
      have hf : (r :: rs).filterMap (fetchOk w) = rs.filterMap (fetchOk w) := by
        simp [List.filterMap_cons, fetchOk, hx]
      rw [hf]
      simp only [searchLoop, hx]
      exact ih bs best

/-- Claim C4: in the search-and-score pass the returned winner is the first
successfully fetched candidate, in fetch order, achieving the maximum score
(ties keep the earliest-seen candidate), and that is exactly what the
resolver returns when the direct pass missed and the search was non-empty. -/
theorem c4_search_winner_first_argmax :
    (∀ (w : WikiEnv) (raw ascii : PyStr) (results : List PyStr),
      searchLoop w raw ascii (results.take 10) none (-1) =
        ((results.take 10).filterMap (fetchOk w)).find?
          (fun p => scorePage raw ascii p
            == scMax raw ascii ((results.take 10).filterMap (fetchOk w)) (-1))) ∧
    (∀ (w : WikiEnv) (nm : PyStr) (results : List PyStr),
      directPass w (candidateVariants w.unidecode nm) = none →
      w.search (w.unidecode (pyStrip nm)) = results →
      ¬results.isEmpty →
      resolve_city_page w nm =
        searchLoop w (pyStrip nm) (w.unidecode (pyStrip nm)) (results.take 10) none (-1)) := by
  constructor
  · intro w raw ascii results
    rcases hf : (results.take 10).filterMap (fetchOk w) with _ | ⟨p, ps⟩
    · rw [searchLoop_find, hf]
      simp [scMax]
    · rw [searchLoop_find, hf]
      have h0 : (0:Int) ≤ scorePage raw ascii p := scorePage_nonneg _ _ _
      have hgt : (-1:Int) < scMax raw ascii (p :: ps) (-1) := by
        have := le_max_left (scorePage raw ascii p) (scMax raw ascii ps (-1))
        rw [scMax_cons]
        omega
      rw [if_pos hgt]
  · intro w nm results hdp hsr hne
    simp only [resolve_city_page, hdp, hsr]
    rw [if_neg hne]

/-- Witness for C4 at the concrete C5 scenario environment: the direct pass
misses, the search returns two candidates, and the winner is the find-style
first argmax. -/
theorem c4_witness :
    resolve_city_page wiki5 (pyS "q") =
      searchLoop wiki5 (pyS "q") (pyS "q") (([pyS "A", pyS "B"] : List PyStr).take 10) none (-1) :=
  c4_search_winner_first_argmax.2 wiki5 (pyS "q") [pyS "A", pyS "B"]
    (by decide) rfl (by decide)

/-- Claim C5 as amended: a disambiguation error raised while fetching a
candidate in the search-and-score pass is caught by the bare
`except Exception: continue` at lines 165-166 and the candidate is skipped,
exactly like any other per-candidate failure; consequently the facts
integration never reports a `Disambiguated` payload — its disambiguation
handler is unreachable from the resolver. -/
theorem c5_amended_disambig_skipped :
    (∀ (w : WikiEnv) (raw ascii r : PyStr) (rest : List PyStr)
        (best : Option Page) (bs : Int),
      fetchIsOk (w.pageAuto r) = false →
      searchLoop w raw ascii (r :: rest) best bs = searchLoop w raw ascii rest best bs) ∧
    (∀ (w : WikiEnv) (nm : Option PyStr),
      (integrations_get_location_facts w nm).error ≠ some (pyS "disambiguation")) := by
  constructor
  · intro w raw ascii r rest best bs h
    rcases hx : w.pageAuto r with p | o | _ | _
    · rw [hx] at h; simp [fetchIsOk] at h
    all_goals simp [searchLoop, hx]
  · intro w nm
    cases nm with
    | none =>
      simp only [integrations_get_location_facts, ne_eq, Option.some.injEq]
      decide
    | some nm =>
      rcases hr : resolve_city_page w nm with _ | p
      · simp only [integrations_get_location_facts, hr, notFoundPayload, ne_eq,
          Option.some.injEq]
        decide
      · simp [integrations_get_location_facts, hr, foundPayload]

/-- Counterexample to claim C5 as stated: in the `wiki5` scenario the first
search candidate raises a disambiguation error during the search-and-score
pass, yet the resolver does not report a `Disambiguated` result — the
candidate is skipped and the other candidate is returned as `Found`. -/
theorem c5_counterexample :
    (integrations_get_location_facts wiki5 (some (pyS "q"))).error = none ∧
    (integrations_get_location_facts wiki5 (some (pyS "q"))).options = none ∧
    (integrations_get_location_facts wiki5 (some (pyS "q"))).resolved_title = some (pyS "B") := by
  refine ⟨?_, ?_, ?_⟩ <;> decide

/-- Witness for the amended C5: the disambiguating candidate `"A"` is
skipped by the search loop. -/
theorem c5_witness :
    searchLoop wiki5 (pyS "q") (pyS "q") (pyS "A" :: [pyS "B"]) none (-1) =
      searchLoop wiki5 (pyS "q") (pyS "q") [pyS "B"] none (-1) :=
  c5_amended_disambig_skipped.1 wiki5 (pyS "q") (pyS "q") (pyS "A") [pyS "B"] none (-1)
    (by decide)
